import Mathlib

set_option maxRecDepth 4000

/-!
Verification of the socket2em line-delimited JSON RPC server (server.go,
models.go) against its natural-language specification.

The embedding translates the Go source:
* JSON values are modelled by the mutual inductive `Json`/`JsonArr`/`JsonObj`;
  Go's `encoding/json` parsing is modelled by `parseJson` for the subset the
  protocol exchanges (objects, arrays, escape-free strings, integer numbers,
  booleans, null, whitespace).
* `Message` mirrors the struct in models.go.  Its `Data` field carries the Go
  struct tag `json:data`, which is malformed (the value is unquoted), so
  `encoding/json` ignores it and falls back to the field name `Data` with
  Go's exact-then-case-insensitive key matching; `applyField` encodes exactly
  that matching.  A `json.RawMessage` is modelled as the parsed `Json` value
  (re-serialized by `serializeJson` where the raw bytes are spliced back into
  output); claims compare JSON values, for which this is faithful.
* The per-connection read loop `tcpClientHandler` is modelled as a function
  from the finite list of `ReadResult`s produced by `textproto.ReadLine` to
  the list of `Effect`s the handler performs.  Per the Go contracts of
  `textproto.Reader.ReadLine`/`bufio.Reader.ReadLine`, a read error is never
  accompanied by a line, so `ReadResult.err` carries no text (the handler
  then sees `message == ""`).
* Logging calls are not modelled (the spec places log formatting/emission
  outside the core); no claim mentions them.
-/

/-! ### JSON values -/

mutual
inductive Json where
| null
| bool (b : Bool)
| num (n : Int)
| str (s : String)
| arr (elems : JsonArr)
| obj (fields : JsonObj)
inductive JsonArr where
| nil
| cons (hd : Json) (tl : JsonArr)
inductive JsonObj where
| nil
| cons (key : String) (val : Json) (tl : JsonObj)
end

def jsonArrAppend : JsonArr → Json → JsonArr
| JsonArr.nil, v => JsonArr.cons v JsonArr.nil
| JsonArr.cons x tl, v => JsonArr.cons x (jsonArrAppend tl v)

def jsonObjAppend : JsonObj → String → Json → JsonObj
| JsonObj.nil, k, v => JsonObj.cons k v JsonObj.nil
| JsonObj.cons k0 v0 tl, k, v => JsonObj.cons k0 v0 (jsonObjAppend tl k v)

/-- Looks up the first field with the given key in a parsed JSON object
(used only to state claims about response objects). -/
def jsonObjFind : JsonObj → String → Option Json
| JsonObj.nil, _ => none
| JsonObj.cons k v tl, key => if k = key then some v else jsonObjFind tl key

/-! ### A JSON parser modelling Go `encoding/json` syntax

The parser covers the protocol subset: integer numbers and escape-free
strings; every construct the handler or the claims exchange stays inside it.
`parseValAt d` parses values of nesting depth at most `d`; since each nesting
level consumes at least one input character, `parseJson` runs it with the
input length as the depth bound, which makes it complete on the subset. -/

def skipWs : List Char → List Char
| [] => []
| c :: cs => if c = ' ' ∨ c = '\t' ∨ c = '\n' ∨ c = '\r' then skipWs cs else c :: cs

def parseStringChars : List Char → Option (List Char × List Char)
| [] => none
| c :: cs =>
  if c = '"' then some ([], cs)
  else match parseStringChars cs with
       | none => none
       | some (s, r) => some (c :: s, r)

def takeDigits : List Char → List Char × List Char
| [] => ([], [])
| c :: cs =>
  if c.isDigit then
    match takeDigits cs with
    | (d, r) => (c :: d, r)
  else ([], c :: cs)

def digitsVal (cs : List Char) : Nat :=
  cs.foldl (fun a c => a * 10 + (c.toNat - 48)) 0

def parseDigits (cs : List Char) : Option (Nat × List Char) :=
  match takeDigits cs with
  | ([], _) => none
  | (ds, r) => some (digitsVal ds, r)

def parseAtomCs : List Char → Option (Json × List Char)
| 'n' :: 'u' :: 'l' :: 'l' :: r => some (Json.null, r)
| 't' :: 'r' :: 'u' :: 'e' :: r => some (Json.bool true, r)
| 'f' :: 'a' :: 'l' :: 's' :: 'e' :: r => some (Json.bool false, r)
| '"' :: r =>
  (match parseStringChars r with
   | none => none
   | some (s, r2) => some (Json.str (String.mk s), r2))
| '-' :: r =>
  (match parseDigits r with
   | none => none
   | some (n, r2) => some (Json.num (-(n : Int)), r2))
| c :: r =>
  if c.isDigit then
    match parseDigits (c :: r) with
    | none => none
    | some (n, r2) => some (Json.num (n : Int), r2)
  else none
| [] => none

def parseArrTail (p : List Char → Option (Json × List Char)) :
    Nat → JsonArr → List Char → Option (Json × List Char)
| 0, _, _ => none
| fuel + 1, acc, cs =>
  match p cs with
  | none => none
  | some (v, r) =>
    match skipWs r with
    | ',' :: r2 => parseArrTail p fuel (jsonArrAppend acc v) r2
    | ']' :: r2 => some (Json.arr (jsonArrAppend acc v), r2)
    | _ => none

def parseObjTail (p : List Char → Option (Json × List Char)) :
    Nat → JsonObj → List Char → Option (Json × List Char)
| 0, _, _ => none
| fuel + 1, acc, cs =>
  match skipWs cs with
  | '"' :: r =>
    (match parseStringChars r with
     | none => none
     | some (kcs, r2) =>
       match skipWs r2 with
       | ':' :: r3 =>
         (match p r3 with
          | none => none
          | some (v, r4) =>
            match skipWs r4 with
            | ',' :: r5 => parseObjTail p fuel (jsonObjAppend acc (String.mk kcs) v) r5
            | '\x7d' :: r5 => some (Json.obj (jsonObjAppend acc (String.mk kcs) v), r5)
            | _ => none)
       | _ => none)
  | _ => none

def parseValAt : Nat → List Char → Option (Json × List Char)
| 0, cs => parseAtomCs (skipWs cs)
| d + 1, cs =>
  match skipWs cs with
  | '[' :: r =>
    (match skipWs r with
     | ']' :: r2 => some (Json.arr JsonArr.nil, r2)
     | r2 => parseArrTail (parseValAt d) (r2.length + 1) JsonArr.nil r2)
  | '\x7b' :: r =>
    (match skipWs r with
     | '\x7d' :: r2 => some (Json.obj JsonObj.nil, r2)
     | r2 => parseObjTail (parseValAt d) (r2.length + 1) JsonObj.nil r2)
  | cs2 => parseAtomCs cs2

/-- Models `json.Unmarshal`'s syntax layer: parse one JSON value and require
only trailing whitespace after it. -/
def parseJson (s : String) : Option Json :=
  match parseValAt s.data.length s.data with
  | some (j, r) => if (skipWs r).isEmpty then some j else none
  | none => none

/-! ### Serialization (models the raw bytes of a `json.RawMessage`) -/

def natToDigitsAux : Nat → Nat → List Char
| 0, _ => []
| fuel + 1, n => if n = 0 then [] else natToDigitsAux fuel (n / 10) ++ [Char.ofNat (48 + n % 10)]

def natToDecimal (n : Nat) : String :=
  if n = 0 then "0" else String.mk (natToDigitsAux (n + 1) n)

def intToDecimal : Int → String
| Int.ofNat n => natToDecimal n
| Int.negSucc n => "-" ++ natToDecimal (n + 1)

mutual
def serializeJson : Json → String
| Json.null => "null"
| Json.bool b => if b then "true" else "false"
| Json.num n => intToDecimal n
| Json.str s => "\"" ++ s ++ "\""
| Json.arr xs => "[" ++ serializeArr xs ++ "]"
| Json.obj fs => "\x7b" ++ serializeObj fs ++ "\x7d"
def serializeArr : JsonArr → String
| JsonArr.nil => ""
| JsonArr.cons x JsonArr.nil => serializeJson x
| JsonArr.cons x tl => serializeJson x ++ "," ++ serializeArr tl
def serializeObj : JsonObj → String
| JsonObj.nil => ""
| JsonObj.cons k v JsonObj.nil => "\"" ++ k ++ "\":" ++ serializeJson v
| JsonObj.cons k v tl => "\"" ++ k ++ "\":" ++ serializeJson v ++ "," ++ serializeObj tl
end

/-! ### models.go: the `Message` struct and `json.Unmarshal` into it

`Message` in models.go is

  type Message struct \x7b
      Method string          `json:"method"`
      Data   json.RawMessage `json:data`
  \x7d

The `Data` tag `json:data` is malformed (the tag value is unquoted), so
`reflect.StructTag.Get("json")` returns the empty string and `encoding/json`
matches the field by its name `Data`: an input key matches on exact equality
or, failing that, case-insensitive equality.  `Data` here holds the parsed
JSON value of the matched field (`none` models a nil `json.RawMessage`). -/

structure Message where
  Method : String
  Data : Option Json

/-- Models `strings.ToLower`/`encoding/json` fold matching for the ASCII keys
the protocol uses. -/
def asciiLowerChar (c : Char) : Char :=
  if 'A' ≤ c ∧ c ≤ 'Z' then Char.ofNat (c.toNat + 32) else c

def asciiLower (s : String) : String :=
  String.mk (s.data.map asciiLowerChar)

/-- Models the syntax-error text `fmt.Sprintf("%v", err)` would produce for a
`json.SyntaxError`; the exact wording is opaque to every claim. -/
def jsonSyntaxErrMsg : String := "invalid character in input"

/-- Models the text of a `json.UnmarshalTypeError`; exact wording opaque. -/
def jsonTypeErrMsg : String := "cannot unmarshal value into Message"

/-- One step of `encoding/json` object decoding into `Message`: key matching
per field (exact name, then case-insensitive), `Method` requiring a JSON
string, `Data` (a `json.RawMessage`) accepting any value. -/
def applyField (req : Message) (k : String) (v : Json) : Except String Message :=
  if k = "method" ∨ asciiLower k = "method" then
    match v with
    | Json.str s => Except.ok { req with Method := s }
    | _ => Except.error jsonTypeErrMsg
  else if k = "Data" ∨ asciiLower k = "data" then
    Except.ok { req with Data := some v }
  else
    Except.ok req

def applyFields : JsonObj → Message → Except String Message
| JsonObj.nil, req => Except.ok req
| JsonObj.cons k v tl, req =>
  match applyField req k v with
  | Except.error e => Except.error e
  | Except.ok req2 => applyFields tl req2

/-- Models `json.Unmarshal([]byte(message), &req)` for `req : Message`:
syntax errors for unparsable text, a type error for a non-object,
non-null top-level value, field-by-field assignment for objects
(later duplicate keys overwrite, unknown keys are ignored), and the zero
`Message` for `null`. -/
def unmarshalMessage (s : String) : Except String Message :=
  match parseJson s with
  | none => Except.error jsonSyntaxErrMsg
  | some Json.null => Except.ok ⟨"", none⟩
  | some (Json.obj fields) => applyFields fields ⟨"", none⟩
  | some _ => Except.error jsonTypeErrMsg

/-! ### server.go: response encoding and the server model -/

/-- Models `strings.HasPrefix` (true iff `pre` is a prefix of `s`). -/
def listStartsWith : List Char → List Char → Bool
| _, [] => true
| [], _ :: _ => false
| c :: cs, p :: ps => c = p && listStartsWith cs ps

def strStartsWith (s pre : String) : Bool :=
  listStartsWith s.data pre.data

/-- Models `strings.Join`. -/
def strJoin (sep : String) : List String → String
| [] => ""
| [s] => s
| s :: rest => s ++ sep ++ strJoin sep rest

/-- The line written by `HandleSuccess(data, conn)`:
`"\x7b\"status\": \"ok\", \"data\": " + data + "\x7d\n"`. -/
def handleSuccessLine (data : String) : String :=
  "\x7b\"status\": \"ok\", \"data\": " ++ data ++ "\x7d\n"

/-- The line written by `HandleError(err, conn)`:
`"\x7b\"status\": \"error\", \"error\": \"" + err.Error() + "\"\x7d\n"`. -/
def handleErrorLine (msg : String) : String :=
  "\x7b\"status\": \"error\", \"error\": \"" ++ msg ++ "\"\x7d\n"

/-- The line written on a `json.Unmarshal` failure in `tcpClientHandler`:
`resp := `...` + fmt.Sprintf("%v", err) + `",""\x7d``, then `resp + "\n"`.
Note the stray `,""` the source inserts before the closing brace. -/
def decodeErrLine (msg : String) : String :=
  "\x7b\"status\": \"error\", \"error\": \"" ++ msg ++ "\",\"\"\x7d\n"

/-- The server state the read loop consults: the method-handler map (an
association list standing for the Go map, iteration order = list order) and
whether an `OnDisconnect` callback is configured.  A registered handler is
modelled by the lines it writes to the connection it is passed. -/
structure ServerModel where
  methodHandlers : List (String × (Message → List String))
  onDisconnectSet : Bool

/-- Go map indexing `self.MethodHandlers[req.Method]`. -/
def mapLookup {α : Type} : List (String × α) → String → Option α
| [], _ => none
| (k, v) :: rest, key => if k = key then some v else mapLookup rest key

/-- Go map assignment `self.MethodHandlers[method] = function`. -/
def mapSet {α : Type} : List (String × α) → String → α → List (String × α)
| [], k, v => [(k, v)]
| (k2, v2) :: rest, k, v =>
  if k2 = k then (k, v) :: rest else (k2, v2) :: mapSet rest k v

/-- The `methods` slice built by `Help()`: `[]string\x7b"help"\x7d` followed by the
method-map keys. -/
def helpMethods (srv : ServerModel) : List String :=
  "help" :: srv.methodHandlers.map Prod.fst

/-- `Help()`: `fmt.Sprintf(`\x7b"methods":["%v"]\x7d`, strings.Join(methods, `", "`))`. -/
def Help (srv : ServerModel) : String :=
  "\x7b\"methods\":[\"" ++ strJoin "\", \"" (helpMethods srv) ++ "\"]\x7d"

/-- `RegisterMethod`: rejects the reserved name `"help"` with
`fmt.Errorf("Method not allowed")` and otherwise stores the handler.
(`self.init()` only replaces nil maps by empty ones; the association-list
model identifies the two, so it is the identity here.)  Returns the Go
`error` result alongside the updated server. -/
def RegisterMethod (srv : ServerModel) (method : String)
    (function : Message → List String) : Option String × ServerModel :=
  if "help" = method then (some "Method not allowed", srv)
  else (none, { srv with methodHandlers := mapSet srv.methodHandlers method function })

/-! ### server.go: the per-connection read loop -/

/-- What the handler observes on one connection: everything it performs
besides reading (logging is not modelled). -/
inductive Effect where
| write (line : String)
| numClientsIncr
| numClientsDecr
| connClose
| registryDelete (idx : Nat)
| onDisconnect (addr : String)
deriving DecidableEq

/-- Errors from `textproto.Reader.ReadLine` as the code distinguishes them:
`io.EOF` versus anything else. -/
inductive GoErr where
| eof
| other
deriving DecidableEq

/-- One result of `tp.ReadLine()`.  Per the `bufio.Reader.ReadLine` contract
("either returns a non-nil line or it returns an error, never both"),
an error is accompanied by the empty string, so `err` carries no text. -/
inductive ReadResult where
| ok (line : String)
| err (e : GoErr)
deriving DecidableEq

/-- `closeClient(conn, idx)`: `self.NumClients--`, `conn.Close()`, the guarded
`delete(self.Clients, idx)`, then `self.OnDisconnect(conn.RemoteAddr().String())`
if configured. -/
def closeClient (srv : ServerModel) (addr : String) (idx : Nat) : List Effect :=
  [Effect.numClientsDecr, Effect.connClose, Effect.registryDelete idx] ++
    (if srv.onDisconnectSet then [Effect.onDisconnect addr] else [])

/-- The body after the control-word switch: `json.Unmarshal`, the error
response with the stray `,""` on failure, the empty-method no-op, built-in
`help`, registered-method dispatch, and `HandleError("Method not found")`. -/
def dispatchMessage (srv : ServerModel) (msg : String) : List Effect :=
  match unmarshalMessage msg with
  | Except.error e => [Effect.write (decodeErrLine e)]
  | Except.ok req =>
    if req.Method = "" then []
    else if req.Method = "help" then [Effect.write (handleSuccessLine (Help srv))]
    else
      match mapLookup srv.methodHandlers req.Method with
      | some f => (f req).map Effect.write
      | none => [Effect.write (handleErrorLine "Method not found")]

/-- The `for` loop of `tcpClientHandler` over the finite list of read
results: returns the effects performed and whether the loop exited
(`return` on `io.EOF`, or `break` via `exitFlag`); `false` means the handler
is still blocked reading.  Mirrors the source order: EOF check, empty-line
skip, the `strings.HasPrefix` switch over `help`/`quit`/`bye`/`exit`, then
dispatch. -/
def handlerLoop (srv : ServerModel) : List ReadResult → List Effect × Bool
| [] => ([], false)
| ReadResult.err GoErr.eof :: _ => ([], true)
| ReadResult.err GoErr.other :: rest => handlerLoop srv rest
| ReadResult.ok msg :: rest =>
  if msg = "" then handlerLoop srv rest
  else if strStartsWith msg "help" then
    (Effect.write (handleSuccessLine (Help srv)) :: (handlerLoop srv rest).1,
     (handlerLoop srv rest).2)
  else if strStartsWith msg "quit" || strStartsWith msg "bye" || strStartsWith msg "exit" then
    ([], true)
  else
    (dispatchMessage srv msg ++ (handlerLoop srv rest).1, (handlerLoop srv rest).2)

/-- `tcpClientHandler(conn, idx)`: `self.NumClients++`, the deferred
`closeClient` (which runs exactly when the loop exits), and the read loop. -/
def tcpClientHandler (srv : ServerModel) (addr : String) (idx : Nat)
    (events : List ReadResult) : List Effect :=
  Effect.numClientsIncr ::
    ((handlerLoop srv events).1 ++
      (if (handlerLoop srv events).2 then closeClient srv addr idx else []))

/-- `Broadcast` writes `fmt.Sprintf("%v\n", message)` to every registered
connection.  A connection is modelled with a flag saying whether its peer is
gone (`conn.Write` then fails); the source discards `conn.Write`'s results,
so the iteration is a plain map over the registry. -/
structure ClientConn where
  id : Nat
  writeFails : Bool

inductive WriteOutcome where
| ok
| failed
deriving DecidableEq

def connWrite (c : ClientConn) (_data : String) : WriteOutcome :=
  if c.writeFails then WriteOutcome.failed else WriteOutcome.ok

/-- `Broadcast(message)`: the trace of attempted writes, in registry
iteration order, each with the data written and the outcome the source
ignores. -/
def Broadcast (clients : List ClientConn) (message : String) :
    List (Nat × String × WriteOutcome) :=
  clients.map (fun c => (c.id, message ++ "\n", connWrite c (message ++ "\n")))

/-! ### server.go: client registry, counter and locking

`Start` runs `guard.Lock(); counter++; self.Clients[counter] = conn;
guard.Unlock()` and then spawns `tcpClientHandler` in a new goroutine, whose
first statement is the unguarded `self.NumClients++`; `closeClient` runs the
unguarded `self.NumClients--` and `conn.Close()` before the guarded
`delete(self.Clients, idx)`.  `RegState` is the shared state and `RegStep`
the atomic actions in program order, so `Relation.ReflTransGen RegStep` is
the set of interleavings the scheduler can produce.  `pendingStart` holds
connections already registered whose handler has not yet run its increment;
`pendingDelete` holds connections whose `closeClient` has decremented but
not yet deleted. -/

structure RegState where
  numClients : Int
  clients : List Nat
  counter : Nat
  pendingStart : List Nat
  pendingDelete : List Nat

inductive RegStep : RegState → RegState → Prop
| accept (n : Int) (cs : List Nat) (c : Nat) (ps pd : List Nat) :
    RegStep ⟨n, cs, c, ps, pd⟩ ⟨n, cs ++ [c + 1], c + 1, ps ++ [c + 1], pd⟩
| handlerStart (n : Int) (cs : List Nat) (c : Nat) (ps pd : List Nat) (i : Nat)
    (h : i ∈ ps) :
    RegStep ⟨n, cs, c, ps, pd⟩ ⟨n + 1, cs, c, ps.erase i, pd⟩
| closeBegin (n : Int) (cs : List Nat) (c : Nat) (ps pd : List Nat) (i : Nat)
    (h1 : i ∈ cs) (h2 : i ∉ ps) (h3 : i ∉ pd) :
    RegStep ⟨n, cs, c, ps, pd⟩ ⟨n - 1, cs, c, ps, pd ++ [i]⟩
| closeEnd (n : Int) (cs : List Nat) (c : Nat) (ps pd : List Nat) (i : Nat)
    (h : i ∈ pd) :
    RegStep ⟨n, cs, c, ps, pd⟩ ⟨n, cs.erase i, c, ps, pd.erase i⟩

/-- `Start` begins with `counter := 0`, `self.NumClients = 0` and empty maps. -/
def RegState.init : RegState := ⟨0, [], 0, [], []⟩

def Reachable (s : RegState) : Prop :=
  Relation.ReflTransGen RegStep RegState.init s

/-- `GetNumClients()`: `return self.NumClients`. -/
def GetNumClients (s : RegState) : Int := s.numClients

/-! ### server.go: lock usage around the `Clients` map, per code path

Each list is the sequence of registry/lock primitives the named source
region performs, in program order. -/

inductive MapOp where
| lockExcl
| unlockExcl
| lockShared
| unlockShared
| insertClient
| deleteClient
| iterateWrite
deriving DecidableEq

/-- The accept-loop registration in `Start`:
`guard.Lock(); counter++; Clients[counter] = conn; guard.Unlock()`. -/
def startAcceptRegisterOps : List MapOp :=
  [MapOp.lockExcl, MapOp.insertClient, MapOp.unlockExcl]

/-- The registry part of `closeClient`:
`guard.Lock(); delete(self.Clients, idx); guard.Unlock()`. -/
def closeClientRegistryOps : List MapOp :=
  [MapOp.lockExcl, MapOp.deleteClient, MapOp.unlockExcl]

/-- `Broadcast`: `for _, conn := range self.Clients \x7b conn.Write(...) \x7d` —
no lock operation appears in its body. -/
def broadcastOps : List MapOp := [MapOp.iterateWrite]

/-- Every map mutation in the trace happens with the exclusive lock held
(`d` = exclusive-lock depth already held). -/
def mutationsExclLocked : List MapOp → Nat → Bool
| [], _ => true
| MapOp.lockExcl :: rest, d => mutationsExclLocked rest (d + 1)
| MapOp.unlockExcl :: rest, d => mutationsExclLocked rest (d - 1)
| MapOp.insertClient :: rest, d => decide (0 < d) && mutationsExclLocked rest d
| MapOp.deleteClient :: rest, d => decide (0 < d) && mutationsExclLocked rest d
| _ :: rest, d => mutationsExclLocked rest d

/-- Every map iteration in the trace happens with some lock (shared or
exclusive) held; `e`/`s` are the held exclusive/shared depths. -/
def iterationLockHeld : List MapOp → Nat → Nat → Bool
| [], _, _ => true
| MapOp.lockExcl :: rest, e, s => iterationLockHeld rest (e + 1) s
| MapOp.unlockExcl :: rest, e, s => iterationLockHeld rest (e - 1) s
| MapOp.lockShared :: rest, e, s => iterationLockHeld rest e (s + 1)
| MapOp.unlockShared :: rest, e, s => iterationLockHeld rest e (s - 1)
| MapOp.iterateWrite :: rest, e, s => decide (0 < e + s) && iterationLockHeld rest e s
| _ :: rest, e, s => iterationLockHeld rest e s

/-! ### Concrete inputs used by the claims -/

/-- The JSON value `\x7b"a":1\x7d`. -/
def aObj : Json := Json.obj (JsonObj.cons "a" (Json.num 1) JsonObj.nil)

/-- The handler the round-trip claim registers for method `"x"`: echo the
decoded payload through the success encoder,
`self.HandleSuccess(string(req.Data), conn)` (`string` of a nil
`json.RawMessage` is `""`). -/
def echoHandler : Message → List String :=
  fun req =>
    [handleSuccessLine (match req.Data with | some j => serializeJson j | none => "")]

/-- A server with the single registered method `"x" ↦ echoHandler`. -/
def echoServer : ServerModel := ⟨[("x", echoHandler)], false⟩

/-- A server with the single registered method `"ping"`. -/
def pingServer : ServerModel := ⟨[("ping", fun _ => ["pong"])], false⟩

def c1PayloadLine : String := "\x7b\"method\":\"x\",\"payload\":\x7b\"a\":1\x7d\x7d"

def c1DataLine : String := "\x7b\"method\":\"x\",\"data\":\x7b\"a\":1\x7d\x7d"

/-- The body (sans newline) `HandleSuccess` emits when echoing `\x7b"a":1\x7d`. -/
def c1ResponseBody : String := "\x7b\"status\": \"ok\", \"data\": \x7b\"a\":1\x7d\x7d"

/-- The help line the code emits with one registered method `"ping"`. -/
def c8CodeLine : String :=
  "\x7b\"status\": \"ok\", \"data\": \x7b\"methods\":[\"help\", \"ping\"]\x7d\x7d\n"

/-- The help line claim C8 states. -/
def c8ClaimLine : String :=
  "\x7b\"status\":\"ok\",\"data\":\x7b\"methods\":[\"help\",\"ping\"]\x7d\x7d\n"

/-! ### C1 -/

/-- C1 counterexample: on the claimed line `\x7b"method":"x","payload":\x7b"a":1\x7d\x7d`
decoding does NOT preserve the payload: the malformed `json:data` struct tag
makes `encoding/json` match the `Data` field only under the key `data`
(exact or case-insensitive), so the `payload` member is dropped, the decoded
`Data` is nil, and the echoed response line is
`\x7b"status": "ok", "data": \x7d` + newline — not a JSON object at all, with no
`data` member deep-equal to `\x7b"a":1\x7d`. -/
theorem c1_payload_roundtrip_counterexample :
    unmarshalMessage c1PayloadLine = Except.ok ⟨"x", none⟩ ∧
    (handlerLoop echoServer [ReadResult.ok c1PayloadLine]).1
      = [Effect.write ("\x7b\"status\": \"ok\", \"data\": \x7d" ++ "\n")] ∧
    parseJson "\x7b\"status\": \"ok\", \"data\": \x7d" = none :=
  ⟨rfl, rfl, rfl⟩

/-- C1 (amended): with the payload keyed `data` — the key the `Message`
struct actually decodes — the round-trip holds: decoding the line
`\x7b"method":"x","data":\x7b"a":1\x7d\x7d` preserves the payload, the echo handler's
response line is `HandleSuccess` applied to the raw payload, and that line
parses to a JSON object whose `data` member deep-equals `\x7b"a":1\x7d`. -/
theorem c1_data_roundtrip :
    unmarshalMessage c1DataLine = Except.ok ⟨"x", some aObj⟩ ∧
    (handlerLoop echoServer [ReadResult.ok c1DataLine]).1
      = [Effect.write (c1ResponseBody ++ "\n")] ∧
    c1ResponseBody ++ "\n" = handleSuccessLine (serializeJson aObj) ∧
    parseJson c1ResponseBody
      = some (Json.obj (JsonObj.cons "status" (Json.str "ok")
          (JsonObj.cons "data" aObj JsonObj.nil))) ∧
    jsonObjFind (JsonObj.cons "status" (Json.str "ok")
          (JsonObj.cons "data" aObj JsonObj.nil)) "data" = some aObj :=
  ⟨rfl, rfl, rfl, rfl, rfl⟩

/-! ### C2 -/

/-- C2 (the code at the failing input): a line that fails envelope decoding
makes the handler emit exactly one response line and return to reading (the
loop has not exited, and a following well-formed line is still dispatched) —
but the emitted line is `\x7b"status": "error", "error": "<msg>",""\x7d`, with a
stray `,""` before the closing brace: it is not valid JSON and does not
match the outbound error format, which is valid JSON. -/
theorem c2_decode_failure_response :
    handlerLoop echoServer [ReadResult.ok "not-json"]
      = ([Effect.write (decodeErrLine jsonSyntaxErrMsg)], false) ∧
    decodeErrLine jsonSyntaxErrMsg
      = "\x7b\"status\": \"error\", \"error\": \"invalid character in input\",\"\"\x7d" ++ "\n" ∧
    parseJson "\x7b\"status\": \"error\", \"error\": \"invalid character in input\",\"\"\x7d"
      = none ∧
    (parseJson "\x7b\"status\":\"error\",\"error\":\"invalid character in input\"\x7d").isSome
      = true ∧
    (handlerLoop echoServer [ReadResult.ok "not-json", ReadResult.ok c1DataLine]).1
      = [Effect.write (decodeErrLine jsonSyntaxErrMsg),
         Effect.write (c1ResponseBody ++ "\n")] :=
  ⟨rfl, rfl, rfl, rfl, rfl⟩

/-! ### C3 -/

/-- C3 counterexample: control-word matching is not case-insensitive: the
line `HELP` is not recognized — it falls through to JSON parsing and draws
the decode-error response, not the method-list success response. -/
theorem c3_uppercase_help_counterexample :
    handlerLoop echoServer [ReadResult.ok "HELP"]
      = ([Effect.write (decodeErrLine jsonSyntaxErrMsg)], false) ∧
    decodeErrLine jsonSyntaxErrMsg ≠ handleSuccessLine (Help echoServer) :=
  ⟨rfl, by decide⟩

/-- C3 (amended): for every non-empty incoming line the control words are
recognized by CASE-SENSITIVE prefix match before JSON parsing: a line
prefixed by `help` emits the method-list success response and the read loop
continues, while a line prefixed by `quit`, `bye`, or `exit` exits the read
loop without further processing. -/
theorem c3_control_word_prefixes (srv : ServerModel) (msg : String)
    (rest : List ReadResult) :
    (strStartsWith msg "help" = true →
      handlerLoop srv (ReadResult.ok msg :: rest)
        = (Effect.write (handleSuccessLine (Help srv)) :: (handlerLoop srv rest).1,
           (handlerLoop srv rest).2)) ∧
    (strStartsWith msg "help" = false →
      (strStartsWith msg "quit" || strStartsWith msg "bye"
        || strStartsWith msg "exit") = true →
      handlerLoop srv (ReadResult.ok msg :: rest) = ([], true)) := by
  constructor
  · intro h
    have hne : ¬ (msg = "") := by
      intro he
      rw [he] at h
      exact absurd h (by decide)
    simp only [handlerLoop, if_neg hne, if_pos h]
  · intro h1 h2
    have hne : ¬ (msg = "") := by
      intro he
      rw [he] at h2
      exact absurd h2 (by decide)
    simp only [handlerLoop, if_neg hne, h1, Bool.false_eq_true, if_false, if_pos h2]

/-- C3 witness: instantiated at `help` and `quit` with an empty tail. -/
theorem c3_control_word_prefixes_witness :
    handlerLoop echoServer [ReadResult.ok "help"]
      = (Effect.write (handleSuccessLine (Help echoServer))
          :: (handlerLoop echoServer []).1, (handlerLoop echoServer []).2) ∧
    handlerLoop echoServer [ReadResult.ok "quit"] = ([], true) :=
  ⟨(c3_control_word_prefixes echoServer "help" []).1 (by decide),
   (c3_control_word_prefixes echoServer "quit" []).2 (by decide) (by decide)⟩

/-! ### C5 -/

/-- C5 (the code at the failing interleaving): both registry mutations (the
accept-loop insert in `Start` and the delete in `closeClient`) do run under
the exclusive lock, but `Broadcast` iterates the identifier-to-sink map with
NO lock held — neither shared nor exclusive — so a broadcast can iterate the
map concurrently with an add or remove. -/
theorem c5_broadcast_iterates_unlocked :
    mutationsExclLocked startAcceptRegisterOps 0 = true ∧
    mutationsExclLocked closeClientRegistryOps 0 = true ∧
    iterationLockHeld broadcastOps 0 0 = false :=
  ⟨rfl, rfl, rfl⟩

/-! ### C6 -/

/-- C6: for every server state, `RegisterMethod("help", handler)` returns
the error `Method not allowed` and leaves the method-handler registry
exactly as it was. -/
theorem c6_register_help_rejected (srv : ServerModel) (f : Message → List String) :
    (RegisterMethod srv "help" f).1 = some "Method not allowed" ∧
    (RegisterMethod srv "help" f).2.methodHandlers = srv.methodHandlers :=
  ⟨rfl, rfl⟩

/-! ### C8 -/

/-- C8 counterexample: with exactly one registered method `"ping"`, the line
`help` produces one response line, but it is
`\x7b"status": "ok", "data": \x7b"methods":["help", "ping"]\x7d\x7d` + newline — the code
inserts spaces after `:` (in `HandleSuccess`) and after the array comma (the
`", "` join separator in `Help`) — which differs from the byte-exact line
the claim states. -/
theorem c8_help_line_counterexample :
    (handlerLoop pingServer [ReadResult.ok "help"]).1 = [Effect.write c8CodeLine] ∧
    c8CodeLine ≠ c8ClaimLine :=
  ⟨rfl, by decide⟩

/-- C8 (amended): the help line with one registered method `"ping"` is
`\x7b"status": "ok", "data": \x7b"methods":["help", "ping"]\x7d\x7d` terminated by a
newline — the same JSON value as the claimed line, differing only in
whitespace — the loop keeps reading afterwards, and the response data lists
`"help"` plus every registered method name. -/
theorem c8_help_line :
    handlerLoop pingServer [ReadResult.ok "help"] = ([Effect.write c8CodeLine], false) ∧
    c8CodeLine = handleSuccessLine (Help pingServer) ∧
    parseJson "\x7b\"status\": \"ok\", \"data\": \x7b\"methods\":[\"help\", \"ping\"]\x7d\x7d"
      = parseJson "\x7b\"status\":\"ok\",\"data\":\x7b\"methods\":[\"help\",\"ping\"]\x7d\x7d" ∧
    (parseJson "\x7b\"status\":\"ok\",\"data\":\x7b\"methods\":[\"help\",\"ping\"]\x7d\x7d").isSome
      = true ∧
    helpMethods pingServer = ["help", "ping"] :=
  ⟨rfl, rfl, rfl, rfl, rfl⟩

/-! ### C9 -/

/-- C9: `Broadcast(message)` attempts exactly one write of
`message + "\n"` to every sink in the registry, in registry order, whatever
each sink's failure flag is — the source discards every `conn.Write` result,
so a failing sink never prevents the writes to the remaining sinks (third
conjunct: a failing first sink is followed by the write to the second). -/
theorem c9_broadcast_writes_all (clients : List ClientConn) (message : String) :
    (Broadcast clients message).map (fun e => (e.1, e.2.1))
      = clients.map (fun c => (c.id, message ++ "\n")) ∧
    (Broadcast clients message).length = clients.length ∧
    Broadcast [⟨1, true⟩, ⟨2, false⟩] message
      = [(1, message ++ "\n", WriteOutcome.failed),
         (2, message ++ "\n", WriteOutcome.ok)] := by
  refine ⟨?_, ?_, rfl⟩
  · simp [Broadcast]
  · simp [Broadcast]

/-! ### C7 -/

/-- Every effect the dispatch step performs is a connection write. -/
theorem dispatchMessage_write_only (srv : ServerModel) (msg : String) :
    ∀ e ∈ dispatchMessage srv msg, ∃ s, e = Effect.write s := by
  intro e he
  cases hu : unmarshalMessage msg with
  | error m =>
    simp only [dispatchMessage, hu, List.mem_singleton] at he
    exact ⟨_, he⟩
  | ok req =>
    simp only [dispatchMessage, hu] at he
    by_cases h0 : req.Method = ""
    · simp [h0] at he
    · rw [if_neg h0] at he
      by_cases h1 : req.Method = "help"
      · rw [if_pos h1] at he
        simp only [List.mem_singleton] at he
        exact ⟨_, he⟩
      · rw [if_neg h1] at he
        cases hl : mapLookup srv.methodHandlers req.Method with
        | some f =>
          rw [hl] at he
          simp only [List.mem_map] at he
          obtain ⟨s, _, rfl⟩ := he
          exact ⟨s, rfl⟩
        | none =>
          rw [hl] at he
          simp only [List.mem_singleton] at he
          exact ⟨_, he⟩

/-- Every effect the read loop itself performs is a connection write. -/
theorem handlerLoop_write_only (srv : ServerModel) (events : List ReadResult) :
    ∀ e ∈ (handlerLoop srv events).1, ∃ s, e = Effect.write s := by
  induction events with
  | nil =>
    intro e he
    simp [handlerLoop] at he
  | cons ev rest ih =>
    intro e he
    match ev with
    | ReadResult.err GoErr.eof => simp [handlerLoop] at he
    | ReadResult.err GoErr.other => exact ih e he
    | ReadResult.ok msg =>
      by_cases h0 : msg = ""
      · rw [h0] at he
        exact ih e he
      · by_cases h1 : strStartsWith msg "help" = true
        · simp only [handlerLoop, if_neg h0, if_pos h1, List.mem_cons] at he
          cases he with
          | inl hw => exact ⟨_, hw⟩
          | inr hmem => exact ih e hmem
        · by_cases h2 : (strStartsWith msg "quit" || strStartsWith msg "bye"
              || strStartsWith msg "exit") = true
          · simp [handlerLoop, if_neg h0, h1, h2] at he
          · simp only [handlerLoop, if_neg h0, h1, h2, Bool.false_eq_true, if_false,
              List.mem_append] at he
            cases he with
            | inl hmem => exact dispatchMessage_write_only srv msg e hmem
            | inr hmem => exact ih e hmem

/-- The loop trace contains none of a given non-write effect. -/
theorem handlerLoop_count_zero (srv : ServerModel) (events : List ReadResult)
    (e : Effect) (h : ∀ s, e ≠ Effect.write s) :
    (handlerLoop srv events).1.count e = 0 := by
  rw [List.count_eq_zero]
  intro hmem
  obtain ⟨s, rfl⟩ := handlerLoop_write_only srv events e hmem
  exact h s rfl

/-- C7: whichever path ends the read loop (end-of-stream or an explicit
`quit`/`bye`/`exit` control word), cleanup runs exactly once: the whole
handler trace contains exactly one live-count decrement, one socket close,
one removal of this connection's identifier from the registry, and — when
the disconnect callback is configured — exactly one callback invocation
with the peer's address. -/
theorem c7_cleanup_exactly_once (srv : ServerModel) (addr : String) (idx : Nat)
    (events : List ReadResult) (h : (handlerLoop srv events).2 = true) :
    (tcpClientHandler srv addr idx events).count Effect.numClientsDecr = 1 ∧
    (tcpClientHandler srv addr idx events).count Effect.connClose = 1 ∧
    (tcpClientHandler srv addr idx events).count (Effect.registryDelete idx) = 1 ∧
    (tcpClientHandler srv addr idx events).count (Effect.onDisconnect addr)
      = (if srv.onDisconnectSet then 1 else 0) := by
  unfold tcpClientHandler
  rw [h, if_pos rfl]
  refine ⟨?_, ?_, ?_, ?_⟩ <;>
  · rw [List.count_cons, List.count_append,
      handlerLoop_count_zero srv events _ (by intro s hcontra; cases hcontra)]
    cases hset : srv.onDisconnectSet <;>
      simp [closeClient, List.count_cons, hset]

/-- C7 witness: a connection that sees EOF at once, on a server with the
disconnect callback configured. -/
theorem c7_cleanup_exactly_once_witness :
    (tcpClientHandler ⟨[], true⟩ "10.0.0.7:41000" 3 [ReadResult.err GoErr.eof]).count
        Effect.numClientsDecr = 1 ∧
    (tcpClientHandler ⟨[], true⟩ "10.0.0.7:41000" 3 [ReadResult.err GoErr.eof]).count
        Effect.connClose = 1 ∧
    (tcpClientHandler ⟨[], true⟩ "10.0.0.7:41000" 3 [ReadResult.err GoErr.eof]).count
        (Effect.registryDelete 3) = 1 ∧
    (tcpClientHandler ⟨[], true⟩ "10.0.0.7:41000" 3 [ReadResult.err GoErr.eof]).count
        (Effect.onDisconnect "10.0.0.7:41000")
      = (if (⟨[], true⟩ : ServerModel).onDisconnectSet then 1 else 0) :=
  c7_cleanup_exactly_once ⟨[], true⟩ "10.0.0.7:41000" 3 [ReadResult.err GoErr.eof] rfl

/-! ### C10 -/

/-- C10: a failed read whose error is not end-of-stream does not end the
read loop: `textproto.ReadLine` hands the handler an empty line with the
error, the handler checks only for `io.EOF`, and the empty-line skip makes
the iteration a no-op, exactly as for an empty successful line.  Moreover
the loop exits only when some read result is end-of-stream or a line
prefixed by `quit`, `bye`, or `exit`. -/
theorem c10_non_eof_error_continues (srv : ServerModel)
    (events rest : List ReadResult) (h : (handlerLoop srv events).2 = true) :
    handlerLoop srv (ReadResult.err GoErr.other :: rest) = handlerLoop srv rest ∧
    handlerLoop srv (ReadResult.ok "" :: rest) = handlerLoop srv rest ∧
    ∃ e ∈ events, e = ReadResult.err GoErr.eof ∨
      ∃ s, e = ReadResult.ok s ∧
        (strStartsWith s "quit" || strStartsWith s "bye"
          || strStartsWith s "exit") = true := by
  refine ⟨rfl, by simp [handlerLoop], ?_⟩
  induction events with
  | nil => simp [handlerLoop] at h
  | cons ev rest2 ih =>
    match ev with
    | ReadResult.err GoErr.eof =>
      exact ⟨ReadResult.err GoErr.eof, List.mem_cons_self _ _, Or.inl rfl⟩
    | ReadResult.err GoErr.other =>
      obtain ⟨e, hmem, hp⟩ := ih h
      exact ⟨e, List.mem_cons_of_mem _ hmem, hp⟩
    | ReadResult.ok msg =>
      by_cases h0 : msg = ""
      · rw [h0] at h
        obtain ⟨e, hmem, hp⟩ := ih h
        exact ⟨e, List.mem_cons_of_mem _ hmem, hp⟩
      · by_cases h1 : strStartsWith msg "help" = true
        · simp only [handlerLoop, if_neg h0, if_pos h1] at h
          obtain ⟨e, hmem, hp⟩ := ih h
          exact ⟨e, List.mem_cons_of_mem _ hmem, hp⟩
        · by_cases h2 : (strStartsWith msg "quit" || strStartsWith msg "bye"
              || strStartsWith msg "exit") = true
          · exact ⟨ReadResult.ok msg, List.mem_cons_self _ _, Or.inr ⟨msg, rfl, h2⟩⟩
          · simp only [handlerLoop, if_neg h0, h1, h2, Bool.false_eq_true, if_false] at h
            obtain ⟨e, hmem, hp⟩ := ih h
            exact ⟨e, List.mem_cons_of_mem _ hmem, hp⟩

/-- C10 witness: a non-EOF read error between two reads is a no-op, and the
loop that then sees EOF exited because of that EOF. -/
theorem c10_non_eof_error_continues_witness :
    handlerLoop echoServer [ReadResult.err GoErr.other, ReadResult.err GoErr.eof]
      = handlerLoop echoServer [ReadResult.err GoErr.eof] ∧
    ∃ e ∈ [ReadResult.err GoErr.eof], e = ReadResult.err GoErr.eof ∨
      ∃ s, e = ReadResult.ok s ∧
        (strStartsWith s "quit" || strStartsWith s "bye"
          || strStartsWith s "exit") = true :=
  ⟨(c10_non_eof_error_continues echoServer [ReadResult.err GoErr.eof]
      [ReadResult.err GoErr.eof] rfl).1,
   (c10_non_eof_error_continues echoServer [ReadResult.err GoErr.eof] [] rfl).2.2⟩

/-! ### C4 -/

/-- Inductive invariant of the registry/counter state: `NumClients` equals
the registry size minus the connections registered but not yet counted and
minus the connections already un-counted but not yet deleted; bookkeeping
side conditions make the lengths well-behaved. -/
def RegInv (s : RegState) : Prop :=
  s.numClients = (s.clients.length : Int) - s.pendingStart.length - s.pendingDelete.length ∧
  s.pendingDelete.Nodup ∧ ∀ i ∈ s.pendingDelete, i ∈ s.clients

theorem regStep_inv {s t : RegState} (hs : RegInv s) (st : RegStep s t) : RegInv t := by
  obtain ⟨hnum, hnd, hsub⟩ := hs
  cases st with
  | accept n cs c ps pd =>
    refine ⟨?_, hnd, ?_⟩
    · simp only at hnum ⊢
      simp [List.length_append]
      omega
    · intro i hi
      exact List.mem_append_left _ (hsub i hi)
  | handlerStart n cs c ps pd i h =>
    refine ⟨?_, hnd, hsub⟩
    simp only at hnum ⊢
    have hlen : (ps.erase i).length = ps.length - 1 := List.length_erase_of_mem h
    have hpos : 0 < ps.length := List.length_pos_of_mem h
    rw [hlen]
    push_cast [Nat.cast_sub hpos]
    omega
  | closeBegin n cs c ps pd i h1 h2 h3 =>
    refine ⟨?_, ?_, ?_⟩
    · simp only at hnum ⊢
      simp [List.length_append]
      omega
    · simp only
      rw [List.nodup_append]
      exact ⟨hnd, List.nodup_singleton i,
        fun a ha hb => h3 (by rwa [List.mem_singleton.mp hb] at ha)⟩
    · intro j hj
      rcases List.mem_append.mp hj with hj2 | hj2
      · exact hsub j hj2
      · rw [List.mem_singleton.mp hj2]
        exact h1
  | closeEnd n cs c ps pd i h =>
    have hic : i ∈ cs := hsub i h
    refine ⟨?_, hnd.erase i, ?_⟩
    · simp only at hnum ⊢
      have hl1 : (cs.erase i).length = cs.length - 1 := List.length_erase_of_mem hic
      have hl2 : (pd.erase i).length = pd.length - 1 := List.length_erase_of_mem h
      have hp1 : 0 < cs.length := List.length_pos_of_mem hic
      have hp2 : 0 < pd.length := List.length_pos_of_mem h
      rw [hl1, hl2]
      push_cast [Nat.cast_sub hp1, Nat.cast_sub hp2]
      omega
    · intro j hj
      have hj2 := (List.Nodup.mem_erase_iff hnd).mp hj
      exact (List.mem_erase_of_ne hj2.1).mpr (hsub j hj2.2)

theorem reachable_inv {s : RegState} (h : Reachable s) : RegInv s := by
  induction h with
  | refl => exact ⟨by simp [RegState.init], List.nodup_nil, by simp [RegState.init]⟩
  | tail _ st ih => exact regStep_inv ih st

/-- The snapshot right after `Start` registers the first connection in
`Clients` but before the spawned handler executes `NumClients++`. -/
def c4MidState : RegState := ⟨0, [1], 1, [1], []⟩

/-- C4 counterexample: the state in which one connection has been accepted
and registered but its handler goroutine has not yet run is reachable, and
there `GetNumClients()` is 0 while the registry holds 1 entry — the count
does disagree with the registry's size, because the increment happens in
the handler goroutine, not in the accept loop that does the registration. -/
theorem c4_count_counterexample :
    Reachable c4MidState ∧
    ¬ GetNumClients c4MidState = (c4MidState.clients.length : Int) :=
  ⟨Relation.ReflTransGen.single (RegStep.accept 0 [] 0 [] []),
   by decide⟩

/-- C4 (amended): in every reachable QUIESCENT snapshot — no registered
connection still waiting for its handler's increment, no close between its
decrement and its registry delete — `GetNumClients()` equals the number of
entries in the client registry; between those instants the two can
transiently disagree. -/
theorem c4_quiescent_count (s : RegState) (h : Reachable s)
    (hps : s.pendingStart = []) (hpd : s.pendingDelete = []) :
    GetNumClients s = (s.clients.length : Int) := by
  have hinv := (reachable_inv h).1
  rw [hps, hpd] at hinv
  simpa [GetNumClients] using hinv

/-- C4 witness: after one accept and its handler's increment, the count and
the registry size are both 1. -/
theorem c4_quiescent_count_witness :
    GetNumClients ⟨1, [1], 1, [], []⟩
      = (((⟨1, [1], 1, [], []⟩ : RegState).clients.length : Nat) : Int) :=
  c4_quiescent_count ⟨1, [1], 1, [], []⟩
    (Relation.ReflTransGen.tail
      (Relation.ReflTransGen.single (RegStep.accept 0 [] 0 [] []))
      (RegStep.handlerStart 0 [1] 1 [1] [] 1 (by decide)))
    rfl rfl
